import Mathlib

/-!
Verification development for a pydantic-style declarative model layer.

The repository consists of documentation examples that declare models and
record the behaviour of validation, coercion, serialization and error
reporting.  The validation engine itself is not part of the repository, so
the definitions below are modelled from the specification: a declarative
model is a set of named fields (name, declared type, optional default)
together with a configuration (extra-data policy, string length constraint,
from_attributes, revalidate_instances), and validation coerces untrusted
input (mapping / object attributes / JSON text) into a model instance or
returns a structured list of errors.
-/

namespace Pydantic

/-- Modelled from the spec: Python runtime values as they appear in the
examples (ints, floats as exact decimals mant / 10 ^ exp, strings, bytes,
datetimes, lists, tuples, dicts, arbitrary objects with attributes, and
materialized model instances holding per-field values plus stored extra
data). -/
inductive PyValue where
  | none
  | bool (b : Bool)
  | int (n : Int)
  | float (mant : Int) (exp : Nat)
  | str (s : String)
  | bytes (s : String)
  | datetime (ts : Int)
  | list (vs : List PyValue)
  | tuple (vs : List PyValue)
  | dict (kvs : List (String × PyValue))
  | obj (cls : String) (attrs : List (String × PyValue))
  | inst (cls : String) (fields : List (String × PyValue))
      (extra : List (String × PyValue))

/-- Modelled from the spec: the extra-data policy (ignore / forbid / allow). -/
inductive ExtraPolicy where
  | ignore
  | forbid
  | allow
  deriving DecidableEq

/-- Modelled from the spec: the revalidate_instances setting. -/
inductive Revalidate where
  | never
  | always
  deriving DecidableEq

/-- Modelled from the spec: the model configuration values exercised by the
examples (extra, str_max_length, from_attributes, revalidate_instances). -/
structure Config where
  extra : ExtraPolicy
  strMaxLength : Option Nat
  fromAttributes : Bool
  revalidateInstances : Revalidate
  deriving DecidableEq

def defaultConfig : Config :=
  ⟨ExtraPolicy.ignore, Option.none, false, Revalidate.never⟩

/-- Modelled from the spec: declared field types, including optionals,
lists, per-field constrained strings and nested models (a nested model
carries its class name, its configuration and its own field declarations:
name, declared type, optional default value). -/
inductive FieldType where
  | tInt
  | tFloat
  | tStr
  | tStrMax (m : Nat)
  | tDatetime
  | tOpt (t : FieldType)
  | tList (t : FieldType)
  | tModel (cls : String) (cfg : Config)
      (fields : List (String × FieldType × Option PyValue))

/-- Modelled from the spec: one entry of a structured validation error:
the location path of the offending field, the error kind, and the bad
input value. -/
structure ValError where
  loc : List String
  kind : String
  input : PyValue

/-- The leading run of decimal digit characters and the remainder. -/
def spanDigits : List Char → List Char × List Char
  | [] => ([], [])
  | c :: cs =>
    if c.isDigit then
      let r := spanDigits cs
      (c :: r.1, r.2)
    else ([], c :: cs)

/-- The natural number denoted by a run of decimal digit characters. -/
def digitsVal (ds : List Char) : Nat :=
  ds.foldl (fun a c => a * 10 + (c.toNat - 48)) 0

/-- Modelled from the spec: lax integer parsing from a decimal string
(optional sign followed by digits), as used by int coercion. -/
def parseIntStr (s : String) : Option Int :=
  let core : List Char → Option Int := fun cs =>
    match spanDigits cs with
    | (ds, []) => if ds.isEmpty then Option.none else Option.some (digitsVal ds : Int)
    | (_, _ :: _) => Option.none
  match s.data with
  | [] => Option.none
  | c :: cs =>
    if c = '-' then (core cs).map (fun n => -n)
    else if c = '+' then core cs
    else core (c :: cs)

/-- Strip trailing powers of ten: the canonical (mantissa, exponent)
representation of the decimal mant / 10 ^ exp. -/
def normFloat : Int → Nat → Int × Nat
  | m, 0 => (m, 0)
  | m, e + 1 => if m % 10 = 0 then normFloat (m / 10) e else (m, e + 1)

/-- The canonical float value of the decimal mant / 10 ^ exp. -/
def mkFloat (mant : Int) (exp : Nat) : PyValue :=
  let r := normFloat mant exp
  PyValue.float r.1 r.2

/-- Modelled from the spec: lax float parsing from a decimal string
(optional sign, integer part, optional fractional part), producing the
canonical (mantissa, exponent) pair of an exact decimal. -/
def parseFloatStr (s : String) : Option (Int × Nat) :=
  let core : List Char → Option (Int × Nat) := fun cs =>
    match spanDigits cs with
    | ([], _) => Option.none
    | (ds, []) => Option.some (normFloat (digitsVal ds : Int) 0)
    | (ds, c :: rest) =>
      if c = '.' then
        match spanDigits rest with
        | ([], _) => Option.none
        | (fs, rest2) =>
          if rest2.isEmpty then
            Option.some (normFloat (digitsVal ds * 10 ^ fs.length + digitsVal fs : Int) fs.length)
          else Option.none
      else Option.none
  match s.data with
  | [] => Option.none
  | c :: cs =>
    if c = '-' then (core cs).map (fun p => (-p.1, p.2))
    else core (c :: cs)

/-- Validate the items of a sequence with the element validator f,
collecting validated items and all element errors, each error located
under the element's index. -/
def runItems (f : PyValue → Except (List ValError) PyValue) :
    Nat → List PyValue → List PyValue × List ValError
  | _, [] => ([], [])
  | i, v :: vs =>
    let rest := runItems f (i + 1) vs
    match f v with
    | Except.ok r => (r :: rest.1, rest.2)
    | Except.error es =>
        (rest.1, es.map (fun e => ⟨toString i :: e.loc, e.kind, e.input⟩) ++ rest.2)

/-- Validate the declared fields against the input key-value pairs with the
field validator f: a present key is validated, an absent key falls back to
the declared default (the default itself is not validated), and an absent
key without default is a missing-field error.  All errors are collected,
each located under its field name. -/
def runFields (f : FieldType → PyValue → Except (List ValError) PyValue)
    (kvs : List (String × PyValue)) :
    List (String × FieldType × Option PyValue) →
      List (String × PyValue) × List ValError
  | [] => ([], [])
  | (n, ft, dflt) :: rest =>
    let r := runFields f kvs rest
    match kvs.lookup n with
    | Option.some v =>
      match f ft v with
      | Except.ok rv => ((n, rv) :: r.1, r.2)
      | Except.error es =>
          (r.1, es.map (fun e => ⟨n :: e.loc, e.kind, e.input⟩) ++ r.2)
    | Option.none =>
      match dflt with
      | Option.some d => ((n, d) :: r.1, r.2)
      | Option.none => (r.1, ⟨[n], "missing", PyValue.dict kvs⟩ :: r.2)

/-- Whether a field with the given name is declared. -/
def hasField (fields : List (String × FieldType × Option PyValue))
    (n : String) : Bool :=
  fields.any (fun fd => fd.1 == n)

/-- Modelled from the spec: validate input key-value pairs against a
model's declared fields, then apply the extra-data policy to the input
keys that match no declared field: ignore drops them, forbid turns each
into an extra_forbidden error, allow stores them on the instance. -/
def validateFieldsCore (f : FieldType → PyValue → Except (List ValError) PyValue)
    (cls : String) (mcfg : Config)
    (fields : List (String × FieldType × Option PyValue))
    (kvs : List (String × PyValue)) : Except (List ValError) PyValue :=
  let fr := runFields f kvs fields
  let extras := kvs.filter (fun kv => !(hasField fields kv.1))
  let extraErrs :=
    match mcfg.extra with
    | ExtraPolicy.forbid => extras.map (fun kv => (⟨[kv.1], "extra_forbidden", kv.2⟩ : ValError))
    | _ => []
  let allErrs := fr.2 ++ extraErrs
  if allErrs.isEmpty then
    Except.ok (PyValue.inst cls fr.1
      (match mcfg.extra with | ExtraPolicy.allow => extras | _ => []))
  else Except.error allErrs

/-- String coercion result under an optional maximum length constraint. -/
def strOk (mx : Option Nat) (s : String) : Except (List ValError) PyValue :=
  match mx with
  | Option.some m =>
      if s.length ≤ m then Except.ok (PyValue.str s)
      else Except.error [⟨[], "string_too_long", PyValue.str s⟩]
  | Option.none => Except.ok (PyValue.str s)

/-- Modelled from the spec: the validator/coercer.  Given a declared type
and an untrusted value it either returns the coerced value of the declared
type or a structured list of errors.  Coercions follow the examples:
integral floats, numeric strings and bools coerce to int; ints, bools and
numeric strings coerce to float; bytes decode to str; tuples coerce to
lists; a mapping (or, under from_attributes, an object's attributes)
populates a model's fields; an already-constructed instance of the same
model is returned untouched under revalidate_instances never and is
revalidated from its stored data under always.  The fuel argument bounds
the recursion depth. -/
def validateValue : Nat → Config → FieldType → PyValue → Except (List ValError) PyValue
  | 0, _, _, v => Except.error [⟨[], "recursion_loop", v⟩]
  | fuel + 1, cfg, t, v =>
    match t, v with
    | FieldType.tInt, PyValue.int n => Except.ok (PyValue.int n)
    | FieldType.tInt, PyValue.bool b =>
        Except.ok (PyValue.int (if b then 1 else 0))
    | FieldType.tInt, PyValue.float m e =>
        let r := normFloat m e
        if r.2 = 0 then Except.ok (PyValue.int r.1)
        else Except.error [⟨[], "int_from_float", PyValue.float m e⟩]
    | FieldType.tInt, PyValue.str s =>
        match parseIntStr s with
        | Option.some n => Except.ok (PyValue.int n)
        | Option.none => Except.error [⟨[], "int_parsing", PyValue.str s⟩]
    | FieldType.tInt, w => Except.error [⟨[], "int_type", w⟩]
    | FieldType.tFloat, PyValue.float m e => Except.ok (PyValue.float m e)
    | FieldType.tFloat, PyValue.int n => Except.ok (PyValue.float n 0)
    | FieldType.tFloat, PyValue.bool b =>
        Except.ok (PyValue.float (if b then 1 else 0) 0)
    | FieldType.tFloat, PyValue.str s =>
        match parseFloatStr s with
        | Option.some p => Except.ok (PyValue.float p.1 p.2)
        | Option.none => Except.error [⟨[], "float_parsing", PyValue.str s⟩]
    | FieldType.tFloat, w => Except.error [⟨[], "float_type", w⟩]
    | FieldType.tStr, PyValue.str s => strOk cfg.strMaxLength s
    | FieldType.tStr, PyValue.bytes s => strOk cfg.strMaxLength s
    | FieldType.tStr, w => Except.error [⟨[], "string_type", w⟩]
    | FieldType.tStrMax m, PyValue.str s =>
        if s.length ≤ m then strOk cfg.strMaxLength s
        else Except.error [⟨[], "string_too_long", PyValue.str s⟩]
    | FieldType.tStrMax m, PyValue.bytes s =>
        if s.length ≤ m then strOk cfg.strMaxLength s
        else Except.error [⟨[], "string_too_long", PyValue.str s⟩]
    | FieldType.tStrMax _, w => Except.error [⟨[], "string_type", w⟩]
    | FieldType.tDatetime, PyValue.datetime d => Except.ok (PyValue.datetime d)
    | FieldType.tDatetime, w => Except.error [⟨[], "datetime_type", w⟩]
    | FieldType.tOpt _, PyValue.none => Except.ok PyValue.none
    | FieldType.tOpt t1, w => validateValue fuel cfg t1 w
    | FieldType.tList t1, PyValue.list vs =>
        let r := runItems (fun x => validateValue fuel cfg t1 x) 0 vs
        if r.2.isEmpty then Except.ok (PyValue.list r.1) else Except.error r.2
    | FieldType.tList t1, PyValue.tuple vs =>
        let r := runItems (fun x => validateValue fuel cfg t1 x) 0 vs
        if r.2.isEmpty then Except.ok (PyValue.list r.1) else Except.error r.2
    | FieldType.tList _, w => Except.error [⟨[], "list_type", w⟩]
    | FieldType.tModel cls mcfg fields, PyValue.dict kvs =>
        validateFieldsCore (fun ft x => validateValue fuel mcfg ft x) cls mcfg fields kvs
    | FieldType.tModel cls mcfg fields, PyValue.obj ocls attrs =>
        if mcfg.fromAttributes then
          validateFieldsCore (fun ft x => validateValue fuel mcfg ft x) cls mcfg fields attrs
        else Except.error [⟨[], "model_type", PyValue.obj ocls attrs⟩]
    | FieldType.tModel cls mcfg fields, PyValue.inst icls fvs ext =>
        if icls == cls then
          match mcfg.revalidateInstances with
          | Revalidate.never => Except.ok (PyValue.inst icls fvs ext)
          | Revalidate.always =>
              validateFieldsCore (fun ft x => validateValue fuel mcfg ft x) cls mcfg fields
                (fvs ++ ext)
        else Except.error [⟨[], "model_type", PyValue.inst icls fvs ext⟩]
    | FieldType.tModel _ _ _, w => Except.error [⟨[], "model_type", w⟩]

/-- A stored value conforms to a declared type: this is the type
conformance invariant claimed for validated instances (declared fields of
an instance are checked recursively; stored extra data is not part of the
declared fields). -/
def conforms : Nat → FieldType → PyValue → Bool
  | 0, _, _ => false
  | fuel + 1, t, v =>
    match t, v with
    | FieldType.tInt, PyValue.int _ => true
    | FieldType.tFloat, PyValue.float _ _ => true
    | FieldType.tStr, PyValue.str _ => true
    | FieldType.tStrMax _, PyValue.str _ => true
    | FieldType.tDatetime, PyValue.datetime _ => true
    | FieldType.tOpt _, PyValue.none => true
    | FieldType.tOpt t1, w => conforms fuel t1 w
    | FieldType.tList t1, PyValue.list vs => vs.all (fun x => conforms fuel t1 x)
    | FieldType.tModel cls _ fields, PyValue.inst icls fvs _ =>
        icls == cls && fields.length == fvs.length &&
        (fields.zip fvs).all (fun p =>
          p.1.1 == p.2.1 && conforms fuel p.1.2.1 p.2.2)
    | _, _ => false

/-- The input contains no already-constructed model instance (validation
from plain data). -/
def instFree : Nat → PyValue → Bool
  | 0, _ => true
  | fuel + 1, v =>
    match v with
    | PyValue.inst _ _ _ => false
    | PyValue.list vs => vs.all (fun x => instFree fuel x)
    | PyValue.tuple vs => vs.all (fun x => instFree fuel x)
    | PyValue.dict kvs => kvs.all (fun kv => instFree fuel kv.2)
    | PyValue.obj _ attrs => attrs.all (fun kv => instFree fuel kv.2)
    | _ => true

/-- Every default value declared anywhere in the type conforms to its
field's declared type. -/
def defaultsConform : Nat → FieldType → Bool
  | 0, _ => false
  | fuel + 1, t =>
    match t with
    | FieldType.tOpt t1 => defaultsConform fuel t1
    | FieldType.tList t1 => defaultsConform fuel t1
    | FieldType.tModel _ _ fields =>
        fields.all (fun fd =>
          (match fd.2.2 with
           | Option.some d => conforms fuel fd.2.1 d
           | Option.none => true) && defaultsConform fuel fd.2.1)
    | _ => true

/-- Modelled from the spec: a declared model: class name, configuration
and declared fields. -/
structure ModelSchema where
  cls : String
  cfg : Config
  fields : List (String × FieldType × Option PyValue)

def ModelSchema.toType (s : ModelSchema) : FieldType :=
  FieldType.tModel s.cls s.cfg s.fields

/-- Modelled from the spec: model_validate, validating an untrusted value
against the model. -/
def ModelSchema.model_validate (s : ModelSchema) (fuel : Nat) (v : PyValue) :
    Except (List ValError) PyValue :=
  validateValue fuel s.cfg s.toType v

/-- Modelled from the spec: model_dump, converting an instance into a
plain mapping from field names to stored values, recursively converting
nested instances (stored extra data is included in the dump). -/
def model_dump : Nat → PyValue → PyValue
  | 0, v => v
  | fuel + 1, v =>
    match v with
    | PyValue.inst _ fvs extra =>
        PyValue.dict ((fvs ++ extra).map (fun kv => (kv.1, model_dump fuel kv.2)))
    | PyValue.list vs => PyValue.list (vs.map (fun x => model_dump fuel x))
    | PyValue.tuple vs => PyValue.tuple (vs.map (fun x => model_dump fuel x))
    | PyValue.dict kvs => PyValue.dict (kvs.map (fun kv => (kv.1, model_dump fuel kv.2)))
    | w => w

/-- Replace (or append) a key's value in an association list. -/
def setKey : List (String × PyValue) → String → PyValue → List (String × PyValue)
  | [], n, v => [(n, v)]
  | (k, w) :: rest, n, v =>
    if k == n then (n, v) :: rest else (k, w) :: setKey rest n v

/-- Modelled from the spec: plain attribute assignment on a constructed
instance.  By default models are mutable and assignment performs no
validation. -/
def setAttr (m : PyValue) (n : String) (v : PyValue) : PyValue :=
  match m with
  | PyValue.inst cls fvs extra => PyValue.inst cls (setKey fvs n v) extra
  | w => w

/-- Attribute access on a constructed instance (declared fields first,
then stored extra data). -/
def getAttr (m : PyValue) (n : String) : Option PyValue :=
  match m with
  | PyValue.inst _ fvs extra =>
      match fvs.lookup n with
      | Option.some v => Option.some v
      | Option.none => extra.lookup n
  | _ => Option.none

/-! JSON text input.  model_validate_json first decodes the JSON text and
then validates the decoded value; malformed text is a json_invalid error. -/

def quoteC : Char := Char.ofNat 34

def backslashC : Char := Char.ofNat 92

def lbraceC : Char := Char.ofNat 123

def rbraceC : Char := Char.ofNat 125

def isJsonWs (c : Char) : Bool :=
  c = ' ' || c = '\n' || c = '\t' || c = '\r'

def skipWs : List Char → List Char
  | [] => []
  | c :: cs => if isJsonWs c then skipWs cs else c :: cs

/-- Characters of a JSON string literal after the opening quote, up to the
closing quote (with minimal escape handling). -/
def parseJStrChars : Nat → List Char → Option (List Char × List Char)
  | 0, _ => Option.none
  | _, [] => Option.none
  | fuel + 1, c :: cs =>
    if c = quoteC then Option.some ([], cs)
    else if c = backslashC then
      match cs with
      | [] => Option.none
      | e :: cs2 =>
          (parseJStrChars fuel cs2).map (fun r =>
            ((if e = 'n' then '\n' else e) :: r.1, r.2))
    else (parseJStrChars fuel cs).map (fun r => (c :: r.1, r.2))

/-- A JSON number: integer, or decimal fraction read as an exact rational. -/
def parseJNum (cs : List Char) : Option (PyValue × List Char) :=
  let p :=
    match cs with
    | c :: rest => if c = '-' then (true, rest) else (false, cs)
    | [] => (false, ([] : List Char))
  match spanDigits p.2 with
  | ([], _) => Option.none
  | (ds, rest) =>
    let iv : Int := if p.1 then -(digitsVal ds : Int) else (digitsVal ds : Int)
    match rest with
    | c :: rest2 =>
      if c = '.' then
        match spanDigits rest2 with
        | ([], _) => Option.none
        | (fs, rest3) =>
          let m : Int := (digitsVal ds * 10 ^ fs.length + digitsVal fs : Int)
          Option.some (mkFloat (if p.1 then -m else m) fs.length, rest3)
      else Option.some (PyValue.int iv, c :: rest2)
    | [] => Option.some (PyValue.int iv, [])

mutual

/-- A JSON value (object, array, string, number, true/false/null). -/
def parseJVal : Nat → List Char → Option (PyValue × List Char)
  | 0, _ => Option.none
  | fuel + 1, cs =>
    match skipWs cs with
    | [] => Option.none
    | c :: rest =>
      if c = quoteC then
        (parseJStrChars (rest.length + 1) rest).map
          (fun r => (PyValue.str (String.mk r.1), r.2))
      else if c = lbraceC then
        match skipWs rest with
        | c2 :: rest2 =>
          if c2 = rbraceC then Option.some (PyValue.dict [], rest2)
          else (parseJPairs fuel (c2 :: rest2)).map (fun r => (PyValue.dict r.1, r.2))
        | [] => Option.none
      else if c = '[' then
        match skipWs rest with
        | c2 :: rest2 =>
          if c2 = ']' then Option.some (PyValue.list [], rest2)
          else (parseJItems fuel (c2 :: rest2)).map (fun r => (PyValue.list r.1, r.2))
        | [] => Option.none
      else
        match c :: rest with
        | 'n' :: 'u' :: 'l' :: 'l' :: rest2 => Option.some (PyValue.none, rest2)
        | 't' :: 'r' :: 'u' :: 'e' :: rest2 => Option.some (PyValue.bool true, rest2)
        | 'f' :: 'a' :: 'l' :: 's' :: 'e' :: rest2 => Option.some (PyValue.bool false, rest2)
        | cs2 => parseJNum cs2

/-- Comma-separated JSON array items up to the closing bracket. -/
def parseJItems : Nat → List Char → Option (List PyValue × List Char)
  | 0, _ => Option.none
  | fuel + 1, cs =>
    match parseJVal fuel cs with
    | Option.none => Option.none
    | Option.some (v, rest) =>
      match skipWs rest with
      | c :: rest2 =>
        if c = ',' then (parseJItems fuel rest2).map (fun r => (v :: r.1, r.2))
        else if c = ']' then Option.some ([v], rest2)
        else Option.none
      | [] => Option.none

/-- Comma-separated JSON object members up to the closing brace. -/
def parseJPairs : Nat → List Char → Option (List (String × PyValue) × List Char)
  | 0, _ => Option.none
  | fuel + 1, cs =>
    match skipWs cs with
    | c :: rest =>
      if c = quoteC then
        match parseJStrChars (rest.length + 1) rest with
        | Option.none => Option.none
        | Option.some (ks, rest2) =>
          match skipWs rest2 with
          | c2 :: rest3 =>
            if c2 = ':' then
              match parseJVal fuel rest3 with
              | Option.none => Option.none
              | Option.some (v, rest4) =>
                match skipWs rest4 with
                | c3 :: rest5 =>
                  if c3 = ',' then
                    (parseJPairs fuel rest5).map
                      (fun r => ((String.mk ks, v) :: r.1, r.2))
                  else if c3 = rbraceC then Option.some ([(String.mk ks, v)], rest5)
                  else Option.none
                | [] => Option.none
            else Option.none
          | [] => Option.none
      else Option.none
    | [] => Option.none

end

/-- Modelled from the spec: decode JSON text into a value, or fail on
malformed JSON. -/
def jsonDecode (s : String) : Option PyValue :=
  match parseJVal (2 * s.length + 4) s.data with
  | Option.some (v, rest) =>
      if (skipWs rest).isEmpty then Option.some v else Option.none
  | Option.none => Option.none

/-- Modelled from the spec: model_validate_json, validating from JSON
text: malformed JSON raises a json_invalid error, well-formed JSON is
decoded and validated as usual. -/
def ModelSchema.model_validate_json (s : ModelSchema) (fuel : Nat) (txt : String) :
    Except (List ValError) PyValue :=
  match jsonDecode txt with
  | Option.some v => s.model_validate fuel v
  | Option.none => Except.error [⟨[], "json_invalid", PyValue.str txt⟩]

/-! The models declared in the repository's examples. -/

/-- The User model's configuration: ConfigDict(str_max_length=10). -/
def userConfig : Config :=
  ⟨ExtraPolicy.ignore, Option.some 10, false, Revalidate.never⟩

/-- class User(BaseModel) with id: int, name: str = 'Jane Doe' and
model_config = ConfigDict(str_max_length=10). -/
def UserSchema : ModelSchema :=
  ⟨"User", userConfig,
    [("id", FieldType.tInt, Option.none),
     ("name", FieldType.tStr, Option.some (PyValue.str "Jane Doe"))]⟩

/-- The User model of the validating-data section: id: int,
name: str = 'John Doe', signup_ts: Optional[datetime] = None. -/
def UserVSchema : ModelSchema :=
  ⟨"User", defaultConfig,
    [("id", FieldType.tInt, Option.none),
     ("name", FieldType.tStr, Option.some (PyValue.str "John Doe")),
     ("signup_ts", FieldType.tOpt FieldType.tDatetime, Option.some PyValue.none)]⟩

/-- The data-conversion Model: a: int, b: float, c: str. -/
def ModelABC : ModelSchema :=
  ⟨"Model", defaultConfig,
    [("a", FieldType.tInt, Option.none),
     ("b", FieldType.tFloat, Option.none),
     ("c", FieldType.tStr, Option.none)]⟩

/-- The collections Model: items: list[int]. -/
def ModelItems : ModelSchema :=
  ⟨"Model", defaultConfig,
    [("items", FieldType.tList FieldType.tInt, Option.none)]⟩

/-- The extra-data Model with the default policy: x: int. -/
def ModelX : ModelSchema :=
  ⟨"Model", defaultConfig, [("x", FieldType.tInt, Option.none)]⟩

/-- The extra-data Model with extra='allow': x: int. -/
def ModelXAllow : ModelSchema :=
  ⟨"Model", ⟨ExtraPolicy.allow, Option.none, false, Revalidate.never⟩,
    [("x", FieldType.tInt, Option.none)]⟩

/-- The extra-data Model with extra='forbid': x: int. -/
def ModelXForbid : ModelSchema :=
  ⟨"Model", ⟨ExtraPolicy.forbid, Option.none, false, Revalidate.never⟩,
    [("x", FieldType.tInt, Option.none)]⟩

/-- The error-handling Model: list_of_ints: list[int], a_float: float. -/
def ModelErr : ModelSchema :=
  ⟨"Model", defaultConfig,
    [("list_of_ints", FieldType.tList FieldType.tInt, Option.none),
     ("a_float", FieldType.tFloat, Option.none)]⟩

/-- The revalidate_instances Model: a: int (default configuration,
revalidate_instances='never'). -/
def ModelA : ModelSchema :=
  ⟨"Model", defaultConfig, [("a", FieldType.tInt, Option.none)]⟩

/-- class Foo(BaseModel): count: int, size: Optional[float] = None. -/
def FooFields : List (String × FieldType × Option PyValue) :=
  [("count", FieldType.tInt, Option.none),
   ("size", FieldType.tOpt FieldType.tFloat, Option.some PyValue.none)]

/-- class Bar(BaseModel): apple: str = 'x', banana: str = 'y'. -/
def BarFields : List (String × FieldType × Option PyValue) :=
  [("apple", FieldType.tStr, Option.some (PyValue.str "x")),
   ("banana", FieldType.tStr, Option.some (PyValue.str "y"))]

/-- class Spam(BaseModel): foo: Foo, bars: list[Bar]. -/
def SpamSchema : ModelSchema :=
  ⟨"Spam", defaultConfig,
    [("foo", FieldType.tModel "Foo" defaultConfig FooFields, Option.none),
     ("bars", FieldType.tList (FieldType.tModel "Bar" defaultConfig BarFields),
       Option.none)]⟩

def fromAttributesConfig : Config :=
  ⟨ExtraPolicy.ignore, Option.none, true, Revalidate.never⟩

/-- class Pet(BaseModel) with from_attributes: name: str, species: str. -/
def PetFields : List (String × FieldType × Option PyValue) :=
  [("name", FieldType.tStr, Option.none),
   ("species", FieldType.tStr, Option.none)]

/-- class Person(BaseModel) with from_attributes: name: str,
age: float = None, pets: list[Pet].  Note the declared default None does
not itself conform to the declared type float. -/
def PersonSchema : ModelSchema :=
  ⟨"Person", fromAttributesConfig,
    [("name", FieldType.tStr, Option.none),
     ("age", FieldType.tFloat, Option.some PyValue.none),
     ("pets", FieldType.tList (FieldType.tModel "Pet" fromAttributesConfig PetFields),
       Option.none)]⟩

/-- class CompanyModel(BaseModel) with from_attributes: id: int,
public_key: str (max_length 20), domains: list[str (max_length 255)]. -/
def CompanySchema : ModelSchema :=
  ⟨"CompanyModel", fromAttributesConfig,
    [("id", FieldType.tInt, Option.none),
     ("public_key", FieldType.tStrMax 20, Option.none),
     ("domains", FieldType.tList (FieldType.tStrMax 255), Option.none)]⟩

/-! General lemmas about the validator. -/

theorem lookup_mem {kvs : List (String × PyValue)} {n : String} {v : PyValue}
    (h : kvs.lookup n = Option.some v) : (n, v) ∈ kvs := by
  induction kvs with
  | nil => simp [List.lookup] at h
  | cons kv rest ih =>
    rcases kv with ⟨k, w⟩
    rw [List.lookup] at h
    by_cases hk : n == k
    · rw [hk] at h
      simp at h hk
      subst h hk
      exact List.mem_cons_self _ _
    · simp only [Bool.not_eq_true] at hk
      rw [hk] at h
      exact List.mem_cons_of_mem _ (ih h)

/-- Scanning one level less deeply still finds no instance. -/
theorem instFree_mono :
    ∀ (fuel : Nat) (v : PyValue), instFree (fuel + 1) v = true → instFree fuel v = true := by
  intro fuel
  induction fuel with
  | zero => intro v _; simp [instFree]
  | succ fuel ih =>
    intro v h
    cases v <;> simp only [instFree, List.all_eq_true] at h ⊢ <;>
      first
        | exact h
        | (intro x hx; exact ih _ (h x hx))

theorem strOk_ok {mx : Option Nat} {s : String} {r : PyValue}
    (h : strOk mx s = Except.ok r) : r = PyValue.str s := by
  unfold strOk at h
  (repeat split at h) <;>
    first
      | (injection h with h1; exact h1.symm)
      | cases h

theorem validateFieldsCore_error_nil
    (f : FieldType → PyValue → Except (List ValError) PyValue)
    (cls : String) (mcfg : Config)
    (fields : List (String × FieldType × Option PyValue))
    (kvs : List (String × PyValue))
    (h : validateFieldsCore f cls mcfg fields kvs = Except.error []) : False := by
  simp only [validateFieldsCore] at h
  split at h
  · cases h
  · rename_i hguard
    injection h with h1
    rw [h1] at hguard
    simp at hguard

theorem instFree_pair_mem {fuel : Nat} {kvs : List (String × PyValue)}
    {n : String} {v : PyValue}
    (h : kvs.all (fun kv => instFree fuel kv.2) = true) (hm : (n, v) ∈ kvs) :
    instFree fuel v = true := by
  rw [List.all_eq_true] at h
  exact h _ hm

/-- If every successful element validation yields a Q-value, an error-free
run of the item validator leaves only Q-values. -/
theorem runItems_all (f : PyValue → Except (List ValError) PyValue)
    (Q : PyValue → Bool) :
    ∀ (vs : List PyValue) (i : Nat),
      (∀ v, v ∈ vs → ∀ r, f v = Except.ok r → Q r = true) →
      (runItems f i vs).2 = [] →
      (runItems f i vs).1.all Q = true := by
  intro vs
  induction vs with
  | nil => intro i _ _; simp [runItems]
  | cons v vs ih =>
    intro i hf herr
    simp only [runItems] at herr ⊢
    cases hv : f v with
    | ok r =>
      simp only [hv] at herr ⊢
      rw [List.all_cons, Bool.and_eq_true]
      exact ⟨hf v (List.mem_cons_self _ _) r hv,
        ih (i + 1) (fun w hw => hf w (List.mem_cons_of_mem _ hw)) herr⟩
    | error es =>
      simp only [hv] at herr ⊢
      rcases List.append_eq_nil.mp herr with ⟨_, h2⟩
      exact ih (i + 1) (fun w hw => hf w (List.mem_cons_of_mem _ hw)) h2

/-- An error-free run of the field validator produces exactly one entry
per declared field, in declaration order, with the declared name, and each
value either validated (hence Q) or the declared default (hence Q when
defaults satisfy Q). -/
theorem runFields_all (f : FieldType → PyValue → Except (List ValError) PyValue)
    (Q : FieldType → PyValue → Bool) (kvs : List (String × PyValue)) :
    ∀ (fields : List (String × FieldType × Option PyValue)),
      (∀ n ft d, (n, ft, d) ∈ fields → ∀ v, kvs.lookup n = Option.some v →
        ∀ r, f ft v = Except.ok r → Q ft r = true) →
      (∀ n ft d, (n, ft, Option.some d) ∈ fields → Q ft d = true) →
      (∀ ft v, f ft v = Except.error [] → False) →
      (runFields f kvs fields).2 = [] →
      (runFields f kvs fields).1.length = fields.length ∧
      (fields.zip (runFields f kvs fields).1).all
        (fun p => p.1.1 == p.2.1 && Q p.1.2.1 p.2.2) = true := by
  intro fields
  induction fields with
  | nil => intro _ _ _ _; simp [runFields]
  | cons fd fs ih =>
    rcases fd with ⟨n, ft, dflt⟩
    intro hf hd hne herr
    have hftail : ∀ n' ft' d', (n', ft', d') ∈ fs → ∀ v, kvs.lookup n' = Option.some v →
        ∀ r, f ft' v = Except.ok r → Q ft' r = true :=
      fun n' ft' d' hm => hf n' ft' d' (List.mem_cons_of_mem _ hm)
    have hdtail : ∀ n' ft' d', (n', ft', Option.some d') ∈ fs → Q ft' d' = true :=
      fun n' ft' d' hm => hd n' ft' d' (List.mem_cons_of_mem _ hm)
    simp only [runFields] at herr ⊢
    cases hl : kvs.lookup n with
    | some v =>
      simp only [hl] at herr ⊢
      cases hv : f ft v with
      | ok rv =>
        simp only [hv] at herr ⊢
        rcases ih hftail hdtail hne herr with ⟨hlen, hall⟩
        refine ⟨by simp [hlen], ?_⟩
        rw [List.zip_cons_cons, List.all_cons, Bool.and_eq_true]
        refine ⟨?_, hall⟩
        simp only [Bool.and_eq_true, beq_self_eq_true]
        exact ⟨trivial, hf n ft dflt (List.mem_cons_self _ _) v hl rv hv⟩
      | error es =>
        simp only [hv] at herr
        rcases List.append_eq_nil.mp herr with ⟨h1, _⟩
        rcases List.map_eq_nil_iff.mp h1 with rfl
        exact absurd hv (fun hcon => hne _ _ hcon)
    | none =>
      simp only [hl] at herr ⊢
      cases dflt with
      | some d =>
        simp only [] at herr ⊢
        rcases ih hftail hdtail hne herr with ⟨hlen, hall⟩
        refine ⟨by simp [hlen], ?_⟩
        rw [List.zip_cons_cons, List.all_cons, Bool.and_eq_true]
        refine ⟨?_, hall⟩
        simp only [Bool.and_eq_true, beq_self_eq_true]
        exact ⟨trivial, hd n ft d (List.mem_cons_self _ _)⟩
      | none => cases herr

/-- Decomposition of a successful validateFieldsCore run: no field errors,
and the result is the instance built from the validated fields plus the
extras retained by the allow policy. -/
theorem validateFieldsCore_ok
    {f : FieldType → PyValue → Except (List ValError) PyValue}
    {cls : String} {mcfg : Config}
    {fields : List (String × FieldType × Option PyValue)}
    {kvs : List (String × PyValue)} {r : PyValue}
    (h : validateFieldsCore f cls mcfg fields kvs = Except.ok r) :
    (runFields f kvs fields).2 = [] ∧
    r = PyValue.inst cls (runFields f kvs fields).1
      (match mcfg.extra with
       | ExtraPolicy.allow => kvs.filter (fun kv => !(hasField fields kv.1))
       | _ => []) := by
  simp only [validateFieldsCore] at h
  split at h
  · rename_i hguard
    rw [List.isEmpty_iff] at hguard
    rcases List.append_eq_nil.mp hguard with ⟨h1, _⟩
    injection h with h2
    exact ⟨h1, h2.symm⟩
  · cases h

theorem defaultsConform_model {fuel : Nat} {cls : String} {mcfg : Config}
    {fields : List (String × FieldType × Option PyValue)}
    (h : defaultsConform (fuel + 1) (FieldType.tModel cls mcfg fields) = true) :
    ∀ n ft d, (n, ft, d) ∈ fields →
      defaultsConform fuel ft = true ∧
      (∀ dv, d = Option.some dv → conforms fuel ft dv = true) := by
  intro n ft d hm
  simp only [defaultsConform, List.all_eq_true] at h
  have hx := h _ hm
  rw [Bool.and_eq_true] at hx
  refine ⟨hx.2, ?_⟩
  intro dv hdv
  subst hdv
  simpa using hx.1

theorem conforms_opt {fuel : Nat} {t1 : FieldType} {r : PyValue}
    (h : conforms fuel t1 r = true) :
    conforms (fuel + 1) (FieldType.tOpt t1) r = true := by
  cases r <;> first | rfl | exact h

/-- The validator never reports an empty error list. -/
theorem validateValue_error_nil :
    ∀ (fuel : Nat) (cfg : Config) (t : FieldType) (v : PyValue),
      validateValue fuel cfg t v = Except.error [] → False := by
  intro fuel
  induction fuel with
  | zero => intro cfg t v h; simp [validateValue] at h
  | succ fuel ih =>
    intro cfg t v h
    cases t <;> cases v <;>
      simp only [validateValue, strOk] at h <;>
      (repeat split at h) <;>
      first
        | exact ih _ _ _ h
        | exact validateFieldsCore_error_nil _ _ _ _ _ h
        | simp_all

theorem conforms_list_eq (fuel : Nat) (t1 : FieldType) (vs : List PyValue) :
    conforms (fuel + 1) (FieldType.tList t1) (PyValue.list vs) =
      vs.all (fun x => conforms fuel t1 x) := by
  rw [conforms]

theorem conforms_model_eq (fuel : Nat) (cls : String) (mcfg : Config)
    (fields : List (String × FieldType × Option PyValue))
    (icls : String) (fvs ext : List (String × PyValue)) :
    conforms (fuel + 1) (FieldType.tModel cls mcfg fields) (PyValue.inst icls fvs ext) =
      (icls == cls && fields.length == fvs.length &&
        (fields.zip fvs).all (fun p => p.1.1 == p.2.1 && conforms fuel p.1.2.1 p.2.2)) := by
  rw [conforms]

/-- Successful validation of instance-free input against a type whose
declared defaults all conform produces a value that conforms to the
declared type. -/
theorem validate_conforms :
    ∀ (fuel : Nat) (cfg : Config) (t : FieldType) (v r : PyValue),
      instFree fuel v = true → defaultsConform fuel t = true →
      validateValue fuel cfg t v = Except.ok r → conforms fuel t r = true := by
  intro fuel
  induction fuel with
  | zero =>
    intro cfg t v r _ _ h
    simp [validateValue] at h
  | succ fuel ih =>
    intro cfg t v r hfree hdef hok
    cases t with
    | tInt =>
      cases v <;> simp only [validateValue] at hok <;>
        (repeat split at hok) <;>
        first
          | (injection hok with h1; subst h1; rw [conforms])
          | injection hok
    | tFloat =>
      cases v <;> simp only [validateValue] at hok <;>
        (repeat split at hok) <;>
        first
          | (injection hok with h1; subst h1; rw [conforms])
          | injection hok
    | tStr =>
      cases v <;> simp only [validateValue] at hok <;>
        first
          | (rw [strOk_ok hok]; rw [conforms])
          | injection hok
    | tStrMax m =>
      cases v <;> simp only [validateValue] at hok <;>
        (repeat split at hok) <;>
        first
          | (rw [strOk_ok hok]; rw [conforms])
          | injection hok
    | tDatetime =>
      cases v <;> simp only [validateValue] at hok <;>
        first
          | (injection hok with h1; subst h1; rw [conforms])
          | injection hok
    | tOpt t1 =>
      have hdef1 : defaultsConform fuel t1 = true := by
        simpa [defaultsConform] using hdef
      cases v <;> simp only [validateValue] at hok <;>
        first
          | (injection hok with h1; subst h1; rw [conforms])
          | exact conforms_opt (ih cfg t1 _ r (instFree_mono fuel _ hfree) hdef1 hok)
    | tList t1 =>
      have hdef1 : defaultsConform fuel t1 = true := by
        simpa [defaultsConform] using hdef
      cases v
      case list vs =>
        simp only [validateValue] at hok
        split at hok
        · rename_i hguard
          injection hok with h1
          subst h1
          rw [List.isEmpty_iff] at hguard
          have hfree1 : vs.all (fun x => instFree fuel x) = true := by
            simpa [instFree] using hfree
          have hall := runItems_all (fun x => validateValue fuel cfg t1 x)
            (conforms fuel t1) vs 0
            (fun w hw rr hrr => ih cfg t1 w rr
              (by rw [List.all_eq_true] at hfree1; exact hfree1 w hw) hdef1 hrr)
            hguard
          rw [conforms_list_eq]
          exact hall
        · cases hok
      case tuple vs =>
        simp only [validateValue] at hok
        split at hok
        · rename_i hguard
          injection hok with h1
          subst h1
          rw [List.isEmpty_iff] at hguard
          have hfree1 : vs.all (fun x => instFree fuel x) = true := by
            simpa [instFree] using hfree
          have hall := runItems_all (fun x => validateValue fuel cfg t1 x)
            (conforms fuel t1) vs 0
            (fun w hw rr hrr => ih cfg t1 w rr
              (by rw [List.all_eq_true] at hfree1; exact hfree1 w hw) hdef1 hrr)
            hguard
          rw [conforms_list_eq]
          exact hall
        · cases hok
      all_goals (simp only [validateValue] at hok; cases hok)
    | tModel cls mcfg fields =>
      have hdm := defaultsConform_model hdef
      cases v
      case dict kvs =>
        simp only [validateValue] at hok
        rcases validateFieldsCore_ok hok with ⟨herr, rfl⟩
        have hfreed : kvs.all (fun kv => instFree fuel kv.2) = true := by
          simpa [instFree] using hfree
        rcases runFields_all (fun ft x => validateValue fuel mcfg ft x)
            (conforms fuel) kvs fields
            (fun n ft d hm w hl rr hrr =>
              ih mcfg ft w rr (instFree_pair_mem hfreed (lookup_mem hl)) (hdm n ft d hm).1 hrr)
            (fun n ft d hm => (hdm n ft (Option.some d) hm).2 d rfl)
            (fun ft w hcon => validateValue_error_nil fuel mcfg ft w hcon)
            herr with ⟨hlen, hall⟩
        rw [conforms_model_eq]
        simp [hlen, hall]
      case obj ocls attrs =>
        simp only [validateValue] at hok
        split at hok
        · rcases validateFieldsCore_ok hok with ⟨herr, rfl⟩
          have hfreed : attrs.all (fun kv => instFree fuel kv.2) = true := by
            simpa [instFree] using hfree
          rcases runFields_all (fun ft x => validateValue fuel mcfg ft x)
              (conforms fuel) attrs fields
              (fun n ft d hm w hl rr hrr =>
                ih mcfg ft w rr (instFree_pair_mem hfreed (lookup_mem hl)) (hdm n ft d hm).1 hrr)
              (fun n ft d hm => (hdm n ft (Option.some d) hm).2 d rfl)
              (fun ft w hcon => validateValue_error_nil fuel mcfg ft w hcon)
              herr with ⟨hlen, hall⟩
          rw [conforms_model_eq]
          simp [hlen, hall]
        · cases hok
      case inst icls fvs ext =>
        simp [instFree] at hfree
      all_goals (simp only [validateValue] at hok; cases hok)

/-- Collected field errors are preserved when a further field is declared. -/
theorem runFields_tail_mem
    (f : FieldType → PyValue → Except (List ValError) PyValue)
    (kvs : List (String × PyValue))
    (fd : String × FieldType × Option PyValue)
    (fs : List (String × FieldType × Option PyValue))
    {e : ValError} (he : e ∈ (runFields f kvs fs).2) :
    e ∈ (runFields f kvs (fd :: fs)).2 := by
  rcases fd with ⟨n, ft, dflt⟩
  cases hl : kvs.lookup n with
  | some v =>
    cases hv : f ft v with
    | ok rv =>
      simp only [runFields, hl, hv]
      exact he
    | error es =>
      simp only [runFields, hl, hv]
      exact List.mem_append_right _ he
  | none =>
    cases dflt with
    | some d =>
      simp only [runFields, hl]
      exact he
    | none =>
      simp only [runFields, hl]
      exact List.mem_cons_of_mem _ he

/-- Produced field entries are preserved when a further field is declared. -/
theorem runFields_tail_out_mem
    (f : FieldType → PyValue → Except (List ValError) PyValue)
    (kvs : List (String × PyValue))
    (fd : String × FieldType × Option PyValue)
    (fs : List (String × FieldType × Option PyValue))
    {p : String × PyValue} (hp : p ∈ (runFields f kvs fs).1) :
    p ∈ (runFields f kvs (fd :: fs)).1 := by
  rcases fd with ⟨n, ft, dflt⟩
  cases hl : kvs.lookup n with
  | some v =>
    cases hv : f ft v with
    | ok rv =>
      simp only [runFields, hl, hv]
      exact List.mem_cons_of_mem _ hp
    | error es =>
      simp only [runFields, hl, hv]
      exact hp
  | none =>
    cases dflt with
    | some d =>
      simp only [runFields, hl]
      exact List.mem_cons_of_mem _ hp
    | none =>
      simp only [runFields, hl]
      exact hp

/-- The errors of a failing declared field all appear among the collected
field errors, located under the field's name. -/
theorem runFields_error_mem
    (f : FieldType → PyValue → Except (List ValError) PyValue)
    (kvs : List (String × PyValue)) :
    ∀ (fields : List (String × FieldType × Option PyValue))
      (n : String) (ft : FieldType) (d : Option PyValue) (v : PyValue)
      (es : List ValError),
      (n, ft, d) ∈ fields → kvs.lookup n = Option.some v →
      f ft v = Except.error es →
      ∀ e, e ∈ es →
        (⟨n :: e.loc, e.kind, e.input⟩ : ValError) ∈ (runFields f kvs fields).2 := by
  intro fields
  induction fields with
  | nil => intro n ft d v es hm _ _ _ _; cases hm
  | cons fd fs ih =>
    intro n ft d v es hm hl hv e he
    rcases List.mem_cons.mp hm with heq | htail
    · rcases heq.symm with rfl
      simp only [runFields, hl, hv]
      exact List.mem_append_left _ (List.mem_map_of_mem _ he)
    · exact runFields_tail_mem f kvs fd fs (ih n ft d v es htail hl hv e he)

/-- A declared field omitted from the input contributes its declared
default to the produced field entries. -/
theorem runFields_default_mem
    (f : FieldType → PyValue → Except (List ValError) PyValue)
    (kvs : List (String × PyValue)) :
    ∀ (fields : List (String × FieldType × Option PyValue))
      (n : String) (ft : FieldType) (d : PyValue),
      (n, ft, Option.some d) ∈ fields → kvs.lookup n = Option.none →
      (n, d) ∈ (runFields f kvs fields).1 := by
  intro fields
  induction fields with
  | nil => intro n ft d hm _; cases hm
  | cons fd fs ih =>
    intro n ft d hm hl
    rcases List.mem_cons.mp hm with heq | htail
    · rcases heq.symm with rfl
      simp only [runFields, hl]
      exact List.mem_cons_self _ _
    · exact runFields_tail_out_mem f kvs fd fs (ih n ft d htail hl)

/-- Modelled from the spec (error reporting): if some declared field's
input value fails to validate, model_validate of the mapping fails, and
every error of that field is reported, located under the field's name. -/
theorem model_validate_reports_field_error
    (fuel : Nat) (s : ModelSchema) (kvs : List (String × PyValue))
    (n : String) (ft : FieldType) (d : Option PyValue) (v : PyValue)
    (es : List ValError)
    (hm : (n, ft, d) ∈ s.fields) (hl : kvs.lookup n = Option.some v)
    (hv : validateValue fuel s.cfg ft v = Except.error es) (hne : es ≠ []) :
    ∃ es2, s.model_validate (fuel + 1) (PyValue.dict kvs) = Except.error es2 ∧
      ∀ e, e ∈ es → (⟨n :: e.loc, e.kind, e.input⟩ : ValError) ∈ es2 := by
  have hmem : ∀ e, e ∈ es →
      (⟨n :: e.loc, e.kind, e.input⟩ : ValError) ∈
        (runFields (fun ft x => validateValue fuel s.cfg ft x) kvs s.fields).2 :=
    runFields_error_mem _ kvs s.fields n ft d v es hm hl hv
  rcases hes : es with _ | ⟨e0, es1⟩
  · exact absurd hes hne
  subst hes
  have h0 := hmem e0 (List.mem_cons_self _ _)
  unfold ModelSchema.model_validate ModelSchema.toType
  simp only [validateValue, validateFieldsCore]
  split
  · rename_i hguard
    rw [List.isEmpty_iff] at hguard
    rcases List.append_eq_nil.mp hguard with ⟨h1, _⟩
    rw [h1] at h0
    cases h0
  · exact ⟨_, rfl, fun e he => List.mem_append_left _ (hmem e he)⟩

/-- Modelled from the spec (defaults): a declared field with a default
that is omitted from the input gets the declared default in the resulting
instance. -/
theorem model_validate_default_used
    (fuel : Nat) (s : ModelSchema) (kvs : List (String × PyValue))
    (n : String) (ft : FieldType) (d : PyValue) (r : PyValue)
    (hm : (n, ft, Option.some d) ∈ s.fields) (hl : kvs.lookup n = Option.none)
    (hok : s.model_validate (fuel + 1) (PyValue.dict kvs) = Except.ok r) :
    ∃ out ext, r = PyValue.inst s.cls out ext ∧ (n, d) ∈ out := by
  unfold ModelSchema.model_validate ModelSchema.toType at hok
  simp only [validateValue] at hok
  rcases validateFieldsCore_ok hok with ⟨_, rfl⟩
  exact ⟨_, _, rfl, runFields_default_mem _ kvs s.fields n ft d hm hl⟩

/-- Modelled from the spec (revalidate_instances never): an instance of
the model given to model_validate is returned unchanged, without any
validation of its stored values. -/
theorem model_validate_instance_passthrough
    (fuel : Nat) (s : ModelSchema)
    (hnever : s.cfg.revalidateInstances = Revalidate.never)
    (fvs ext : List (String × PyValue)) :
    s.model_validate (fuel + 1) (PyValue.inst s.cls fvs ext) =
      Except.ok (PyValue.inst s.cls fvs ext) := by
  simp [ModelSchema.model_validate, ModelSchema.toType, validateValue, hnever]

/-- Under extra='ignore', a successful validation stores no extra data. -/
theorem model_validate_extra_ignore
    (fuel : Nat) (s : ModelSchema) (kvs : List (String × PyValue)) (r : PyValue)
    (hig : s.cfg.extra = ExtraPolicy.ignore)
    (hok : s.model_validate (fuel + 1) (PyValue.dict kvs) = Except.ok r) :
    r = PyValue.inst s.cls
      (runFields (fun ft x => validateValue fuel s.cfg ft x) kvs s.fields).1 [] := by
  unfold ModelSchema.model_validate ModelSchema.toType at hok
  simp only [validateValue] at hok
  rcases validateFieldsCore_ok hok with ⟨_, rfl⟩
  rw [hig]

/-- Under extra='allow', a successful validation stores exactly the input
pairs whose keys match no declared field. -/
theorem model_validate_extra_allow
    (fuel : Nat) (s : ModelSchema) (kvs : List (String × PyValue)) (r : PyValue)
    (hallow : s.cfg.extra = ExtraPolicy.allow)
    (hok : s.model_validate (fuel + 1) (PyValue.dict kvs) = Except.ok r) :
    r = PyValue.inst s.cls
      (runFields (fun ft x => validateValue fuel s.cfg ft x) kvs s.fields).1
      (kvs.filter (fun kv => !(hasField s.fields kv.1))) := by
  unfold ModelSchema.model_validate ModelSchema.toType at hok
  simp only [validateValue] at hok
  rcases validateFieldsCore_ok hok with ⟨_, rfl⟩
  rw [hallow]

/-- Under extra='forbid', an input pair whose key matches no declared
field makes validation fail, reporting extra_forbidden at that key. -/
theorem model_validate_extra_forbid
    (fuel : Nat) (s : ModelSchema) (kvs : List (String × PyValue))
    (k : String) (w : PyValue)
    (hforbid : s.cfg.extra = ExtraPolicy.forbid)
    (hmem : (k, w) ∈ kvs) (hnf : hasField s.fields k = false) :
    ∃ es, s.model_validate (fuel + 1) (PyValue.dict kvs) = Except.error es ∧
      (⟨[k], "extra_forbidden", w⟩ : ValError) ∈ es := by
  have hx : (k, w) ∈ kvs.filter (fun kv => !(hasField s.fields kv.1)) := by
    rw [List.mem_filter]
    exact ⟨hmem, by simp [hnf]⟩
  unfold ModelSchema.model_validate ModelSchema.toType
  simp only [validateValue, validateFieldsCore, hforbid]
  split
  · rename_i hguard
    exfalso
    rw [List.isEmpty_iff] at hguard
    rcases List.append_eq_nil.mp hguard with ⟨_, h2⟩
    have hfil := List.map_eq_nil_iff.mp h2
    rw [hfil] at hx
    cases hx
  · refine ⟨_, rfl, ?_⟩
    exact List.mem_append_right _ (List.mem_map_of_mem _ hx)

/-- Under the User configuration (str_max_length=10), a string of length
at most ten validates to itself. -/
theorem user_str_ok (fuel : Nat) (sv : String) (h : sv.length ≤ 10) :
    validateValue (fuel + 1) userConfig FieldType.tStr (PyValue.str sv) =
      Except.ok (PyValue.str sv) := by
  simp only [validateValue, userConfig, strOk]
  rw [if_pos h]

/-- Under the User configuration (str_max_length=10), a string longer than
ten characters is rejected as string_too_long. -/
theorem user_str_too_long (fuel : Nat) (sv : String) (h : 10 < sv.length) :
    validateValue (fuel + 1) userConfig FieldType.tStr (PyValue.str sv) =
      Except.error [⟨[], "string_too_long", PyValue.str sv⟩] := by
  simp only [validateValue, userConfig, strOk]
  rw [if_neg (Nat.not_le.mpr h)]

/-! The claims. -/

/-- C1 (amended): for every model whose declared defaults conform to their
declared types and every instance-free untrusted input on which validation
succeeds, every field's stored value in the resulting instance conforms to
that field's declared type (e.g. validating User with id='123' yields an
instance whose id is the integer 123). -/
theorem C1_validated_fields_conform (fuel : Nat) (s : ModelSchema) (v r : PyValue)
    (hfree : instFree fuel v = true)
    (hdef : defaultsConform fuel s.toType = true)
    (hok : s.model_validate fuel v = Except.ok r) :
    conforms fuel s.toType r = true :=
  validate_conforms fuel s.cfg s.toType v r hfree hdef hok

/-- C1 witness: User.model_validate with id='123' succeeds and the result
(id = 123, name = 'Jane Doe') conforms to the declared field types. -/
theorem C1_validated_fields_conform_witness :
    conforms 10 UserSchema.toType
      (PyValue.inst "User" [("id", PyValue.int 123), ("name", PyValue.str "Jane Doe")] []) = true :=
  C1_validated_fields_conform 10 UserSchema
    (PyValue.dict [("id", PyValue.str "123")]) _ rfl rfl rfl

/-- C1 counterexample: as stated the claim fails on the Person model of
the source, which declares age: float = None.  Validating input that omits
age succeeds (defaults are stored unvalidated), yet the stored age value
None does not conform to the declared type float. -/
theorem C1_counterexample :
    PersonSchema.model_validate 10
        (PyValue.dict [("name", PyValue.str "Anna"), ("pets", PyValue.list [])]) =
      Except.ok (PyValue.inst "Person"
        [("name", PyValue.str "Anna"), ("age", PyValue.none), ("pets", PyValue.list [])] []) ∧
    getAttr (PyValue.inst "Person"
        [("name", PyValue.str "Anna"), ("age", PyValue.none), ("pets", PyValue.list [])] [])
        "age" = Option.some PyValue.none ∧
    conforms 10 FieldType.tFloat PyValue.none = false :=
  ⟨rfl, rfl, rfl⟩

/-- C2: whenever a declared field's input value fails to validate, the
model validation fails with a structured error list in which each of that
field's errors appears located under the field's name with its error kind
and bad input value; on the error-handling example the two reported errors
are exactly int_parsing at list_of_ints.2 with input 'bad' and
float_parsing at a_float with input 'not a float'. -/
theorem C2_structured_errors :
    (∀ (fuel : Nat) (s : ModelSchema) (kvs : List (String × PyValue))
       (n : String) (ft : FieldType) (d : Option PyValue) (v : PyValue)
       (es : List ValError),
       (n, ft, d) ∈ s.fields → kvs.lookup n = Option.some v →
       validateValue fuel s.cfg ft v = Except.error es → es ≠ [] →
       ∃ es2, s.model_validate (fuel + 1) (PyValue.dict kvs) = Except.error es2 ∧
         ∀ e, e ∈ es → (⟨n :: e.loc, e.kind, e.input⟩ : ValError) ∈ es2) ∧
    ModelErr.model_validate 10 (PyValue.dict
        [("list_of_ints", PyValue.list [PyValue.str "1", PyValue.int 2, PyValue.str "bad"]),
         ("a_float", PyValue.str "not a float")]) =
      Except.error
        [⟨["list_of_ints", "2"], "int_parsing", PyValue.str "bad"⟩,
         ⟨["a_float"], "float_parsing", PyValue.str "not a float"⟩] :=
  ⟨model_validate_reports_field_error, rfl⟩

/-- C3: model validation is total (an instance or a structured error list,
never anything else); a non-mapping non-instance input such as a list is
rejected with model_type; malformed JSON text is rejected with
json_invalid while well-formed JSON validates; an object's attributes
validate under from_attributes (the CompanyModel example). -/
theorem C3_total_with_structured_failures :
    (∀ (fuel : Nat) (s : ModelSchema) (v : PyValue),
       (∃ r, s.model_validate fuel v = Except.ok r) ∨
       (∃ es, s.model_validate fuel v = Except.error es)) ∧
    UserVSchema.model_validate 10
        (PyValue.list [PyValue.str "not", PyValue.str "a", PyValue.str "dict"]) =
      Except.error [⟨[], "model_type",
        PyValue.list [PyValue.str "not", PyValue.str "a", PyValue.str "dict"]⟩] ∧
    UserVSchema.model_validate_json 10 "invalid JSON" =
      Except.error [⟨[], "json_invalid", PyValue.str "invalid JSON"⟩] ∧
    UserVSchema.model_validate_json 10 "\x7b\"id\": 123, \"name\": \"James\"\x7d" =
      Except.ok (PyValue.inst "User"
        [("id", PyValue.int 123), ("name", PyValue.str "James"),
         ("signup_ts", PyValue.none)] []) ∧
    CompanySchema.model_validate 10
        (PyValue.obj "CompanyOrm"
          [("id", PyValue.int 123), ("public_key", PyValue.str "foobar"),
           ("domains", PyValue.list [PyValue.str "example.com", PyValue.str "foobar.com"])]) =
      Except.ok (PyValue.inst "CompanyModel"
        [("id", PyValue.int 123), ("public_key", PyValue.str "foobar"),
         ("domains", PyValue.list [PyValue.str "example.com", PyValue.str "foobar.com"])] []) := by
  refine ⟨?_, rfl, rfl, rfl, rfl⟩
  intro fuel s v
  cases h : s.model_validate fuel v with
  | ok r => exact Or.inl ⟨r, rfl⟩
  | error es => exact Or.inr ⟨es, rfl⟩

/-- C4: model_dump turns an instance into a plain mapping from field names
to dumped stored values (nested instances become nested mappings); on the
examples, User(id='123') dumps to the mapping with id 123 and name
'Jane Doe', and the Spam instance dumps with foo and bars as nested plain
mappings. -/
theorem C4_dump_plain_mapping :
    (∀ (fuel : Nat) (cls : String) (fvs ext : List (String × PyValue)),
       model_dump (fuel + 1) (PyValue.inst cls fvs ext) =
         PyValue.dict ((fvs ++ ext).map (fun kv => (kv.1, model_dump fuel kv.2)))) ∧
    (UserSchema.model_validate 10 (PyValue.dict [("id", PyValue.str "123")])).map
        (model_dump 10) =
      Except.ok (PyValue.dict [("id", PyValue.int 123), ("name", PyValue.str "Jane Doe")]) ∧
    (SpamSchema.model_validate 10
        (PyValue.dict [("foo", PyValue.dict [("count", PyValue.int 4)]),
          ("bars", PyValue.list [PyValue.dict [("apple", PyValue.str "x1")],
            PyValue.dict [("apple", PyValue.str "x2")]])])).map (model_dump 10) =
      Except.ok (PyValue.dict
        [("foo", PyValue.dict [("count", PyValue.int 4), ("size", PyValue.none)]),
         ("bars", PyValue.list
           [PyValue.dict [("apple", PyValue.str "x1"), ("banana", PyValue.str "y")],
            PyValue.dict [("apple", PyValue.str "x2"), ("banana", PyValue.str "y")]])]) := by
  refine ⟨?_, rfl, rfl⟩
  intro fuel cls fvs ext
  rw [model_dump]

/-- C5: a declared field with a default that is omitted from the input
gets the declared default in the resulting instance (provided validation
succeeds); on the examples, User.model_validate with id and name only
yields signup_ts = None, and User(id='123') yields name = 'Jane Doe'. -/
theorem C5_omitted_fields_get_defaults :
    (∀ (fuel : Nat) (s : ModelSchema) (kvs : List (String × PyValue))
       (n : String) (ft : FieldType) (d : PyValue) (r : PyValue),
       (n, ft, Option.some d) ∈ s.fields → kvs.lookup n = Option.none →
       s.model_validate (fuel + 1) (PyValue.dict kvs) = Except.ok r →
       ∃ out ext, r = PyValue.inst s.cls out ext ∧ (n, d) ∈ out) ∧
    UserVSchema.model_validate 10
        (PyValue.dict [("id", PyValue.int 123), ("name", PyValue.str "James")]) =
      Except.ok (PyValue.inst "User"
        [("id", PyValue.int 123), ("name", PyValue.str "James"),
         ("signup_ts", PyValue.none)] []) ∧
    UserSchema.model_validate 10 (PyValue.dict [("id", PyValue.str "123")]) =
      Except.ok (PyValue.inst "User"
        [("id", PyValue.int 123), ("name", PyValue.str "Jane Doe")] []) :=
  ⟨model_validate_default_used, rfl, rfl⟩

/-- C6: the extra-data policy fully determines the treatment of input
keys matching no declared field: under ignore a successful validation
stores no extra data (and Model(x=1, y='a') dumps to x only); under forbid
an extra key fails validation with extra_forbidden; under allow the extra
pairs are stored on the instance and appear in its dump. -/
theorem C6_extra_policy :
    (∀ (fuel : Nat) (s : ModelSchema) (kvs : List (String × PyValue)) (r : PyValue),
       s.cfg.extra = ExtraPolicy.ignore →
       s.model_validate (fuel + 1) (PyValue.dict kvs) = Except.ok r →
       r = PyValue.inst s.cls
         (runFields (fun ft x => validateValue fuel s.cfg ft x) kvs s.fields).1 []) ∧
    (∀ (fuel : Nat) (s : ModelSchema) (kvs : List (String × PyValue)) (r : PyValue),
       s.cfg.extra = ExtraPolicy.allow →
       s.model_validate (fuel + 1) (PyValue.dict kvs) = Except.ok r →
       r = PyValue.inst s.cls
         (runFields (fun ft x => validateValue fuel s.cfg ft x) kvs s.fields).1
         (kvs.filter (fun kv => !(hasField s.fields kv.1)))) ∧
    (∀ (fuel : Nat) (s : ModelSchema) (kvs : List (String × PyValue))
       (k : String) (w : PyValue),
       s.cfg.extra = ExtraPolicy.forbid →
       (k, w) ∈ kvs → hasField s.fields k = false →
       ∃ es, s.model_validate (fuel + 1) (PyValue.dict kvs) = Except.error es ∧
         (⟨[k], "extra_forbidden", w⟩ : ValError) ∈ es) ∧
    (ModelX.model_validate 10
        (PyValue.dict [("x", PyValue.int 1), ("y", PyValue.str "a")])).map (model_dump 10) =
      Except.ok (PyValue.dict [("x", PyValue.int 1)]) ∧
    ModelXForbid.model_validate 10
        (PyValue.dict [("x", PyValue.int 1), ("y", PyValue.str "a")]) =
      Except.error [⟨["y"], "extra_forbidden", PyValue.str "a"⟩] ∧
    ModelXAllow.model_validate 10
        (PyValue.dict [("x", PyValue.int 1), ("y", PyValue.str "a")]) =
      Except.ok (PyValue.inst "Model" [("x", PyValue.int 1)] [("y", PyValue.str "a")]) ∧
    (ModelXAllow.model_validate 10
        (PyValue.dict [("x", PyValue.int 1), ("y", PyValue.str "a")])).map (model_dump 10) =
      Except.ok (PyValue.dict [("x", PyValue.int 1), ("y", PyValue.str "a")]) :=
  ⟨model_validate_extra_ignore, model_validate_extra_allow, model_validate_extra_forbid,
    rfl, rfl, rfl, rfl⟩

/-- C7: validation coerces convertible values to the declared type instead
of failing: a=3.000 (an integral float) is stored as the int 3, b='2.72'
as the float 2.72, c=b'binary data' as the decoded str, and a tuple
(1, 2, 3) for a list[int] field is stored as the list [1, 2, 3]. -/
theorem C7_type_coercion :
    (ModelABC.model_validate 10
        (PyValue.dict [("a", PyValue.float 3 0), ("b", PyValue.str "2.72"),
          ("c", PyValue.bytes "binary data")])).map (model_dump 10) =
      Except.ok (PyValue.dict [("a", PyValue.int 3), ("b", PyValue.float 272 2),
        ("c", PyValue.str "binary data")]) ∧
    (ModelABC.model_validate 10
        (PyValue.dict [("a", PyValue.float 3000 3), ("b", PyValue.str "2.72"),
          ("c", PyValue.bytes "binary data")])).map (model_dump 10) =
      Except.ok (PyValue.dict [("a", PyValue.int 3), ("b", PyValue.float 272 2),
        ("c", PyValue.str "binary data")]) ∧
    ModelItems.model_validate 10
        (PyValue.dict [("items", PyValue.tuple [PyValue.int 1, PyValue.int 2, PyValue.int 3])]) =
      Except.ok (PyValue.inst "Model"
        [("items", PyValue.list [PyValue.int 1, PyValue.int 2, PyValue.int 3])] []) :=
  ⟨rfl, rfl, rfl⟩

/-- C8: attribute assignment on a constructed instance is not validated,
and under revalidate_instances never (the default) model_validate of an
instance of the model returns it unchanged; hence after constructing
Model(a=0), assigning a := 'not an int' and revalidating, the stored a
violates the declared int type and no error is raised. -/
theorem C8_assignment_not_validated :
    (∀ (fuel : Nat) (s : ModelSchema),
       s.cfg.revalidateInstances = Revalidate.never →
       ∀ (fvs ext : List (String × PyValue)),
         s.model_validate (fuel + 1) (PyValue.inst s.cls fvs ext) =
           Except.ok (PyValue.inst s.cls fvs ext)) ∧
    ModelA.model_validate 10 (PyValue.dict [("a", PyValue.int 0)]) =
      Except.ok (PyValue.inst "Model" [("a", PyValue.int 0)] []) ∧
    setAttr (PyValue.inst "Model" [("a", PyValue.int 0)] []) "a" (PyValue.str "not an int") =
      PyValue.inst "Model" [("a", PyValue.str "not an int")] [] ∧
    ModelA.model_validate 10 (PyValue.inst "Model" [("a", PyValue.str "not an int")] []) =
      Except.ok (PyValue.inst "Model" [("a", PyValue.str "not an int")] []) ∧
    conforms 10 ModelA.toType (PyValue.inst "Model" [("a", PyValue.str "not an int")] []) = false :=
  ⟨model_validate_instance_passthrough, rfl, rfl, rfl, rfl⟩

/-- C9: the User model is declared with str_max_length=10: a name string
longer than ten characters is rejected as string_too_long (also at the
model level), while any string of length at most ten — in particular the
default 'Jane Doe' — is accepted. -/
theorem C9_user_str_max_length :
    (∀ (fuel : Nat) (sv : String), sv.length ≤ 10 →
       validateValue (fuel + 1) userConfig FieldType.tStr (PyValue.str sv) =
         Except.ok (PyValue.str sv)) ∧
    (∀ (fuel : Nat) (sv : String), 10 < sv.length →
       validateValue (fuel + 1) userConfig FieldType.tStr (PyValue.str sv) =
         Except.error [⟨[], "string_too_long", PyValue.str sv⟩]) ∧
    UserSchema.model_validate 10
        (PyValue.dict [("id", PyValue.int 1), ("name", PyValue.str "James Longname")]) =
      Except.error [⟨["name"], "string_too_long", PyValue.str "James Longname"⟩] ∧
    UserSchema.model_validate 10
        (PyValue.dict [("id", PyValue.int 1), ("name", PyValue.str "Jane Doe")]) =
      Except.ok (PyValue.inst "User"
        [("id", PyValue.int 1), ("name", PyValue.str "Jane Doe")] []) :=
  ⟨user_str_ok, user_str_too_long, rfl, rfl⟩

/-- C10: coercion is lossy, so validate-then-dump is not the identity: on
the data-conversion example the dump (a as int 3, b as the float 2.72, c
as a str) differs from the input mapping (a as float, b as str, c as
bytes); while an input already in canonical post-coercion form (ints,
floats, strs for the a, b, c fields) round-trips unchanged. -/
theorem C10_validate_dump_roundtrip :
    (ModelABC.model_validate 10
        (PyValue.dict [("a", PyValue.float 3 0), ("b", PyValue.str "2.72"),
          ("c", PyValue.bytes "binary data")])).map (model_dump 10) =
      Except.ok (PyValue.dict [("a", PyValue.int 3), ("b", PyValue.float 272 2),
        ("c", PyValue.str "binary data")]) ∧
    PyValue.dict [("a", PyValue.int 3), ("b", PyValue.float 272 2),
        ("c", PyValue.str "binary data")] ≠
      PyValue.dict [("a", PyValue.float 3 0), ("b", PyValue.str "2.72"),
        ("c", PyValue.bytes "binary data")] ∧
    (∀ (i mant : Int) (e : Nat) (s2 : String),
       (ModelABC.model_validate 10
           (PyValue.dict [("a", PyValue.int i), ("b", PyValue.float mant e),
             ("c", PyValue.str s2)])).map (model_dump 10) =
         Except.ok (PyValue.dict [("a", PyValue.int i), ("b", PyValue.float mant e),
           ("c", PyValue.str s2)])) := by
  refine ⟨rfl, ?_, fun i mant e s2 => rfl⟩
  intro h
  simp at h

end Pydantic
